import Mathlib

/-!
Verification of the concurrent module-materialization pipeline of
`src/cmd/go/internal/modcmd/download.go` (`runDownload`).

The Go code is embedded shallowly:
* `ModulePublic` / `ModInfo` model the descriptors returned by
  `modload.ListModules` (only the fields `runDownload` reads).
* `ModuleJSON` models the `moduleJSON` outcome record; as in Go, the empty
  string is the zero value meaning "unset".
* `Fetcher` packages the six external `modfetch` operations; `runWorker` is
  the worker closure passed to `work.Do` (lines 155–185).
* `Work` models the deduplicating scheduler `cmd/go/internal/par.Work`
  (not part of the provided sources; modelled from the spec, see its
  doc comment).  `workDo` models the drain: the worker runs once per
  scheduled record, in some completion order; concurrency is modelled by
  quantifying over that order.
* `resolveMods` is the resolution loop (lines 131–152), `reportJSON` /
  `reportPlain` the output loops (lines 187–205), and `runDownload` the
  whole command.
-/

/-- Effective identity of one resolved module: path, version and the
per-descriptor resolution error (`info.Error.Err` in Go, `none` when
`info.Error == nil`). -/
structure ModInfo where
  Path : String
  Version : String
  Error : Option String
deriving DecidableEq, Repr

/-- The fields of `modinfo.ModulePublic` that `runDownload` reads: path,
version, per-descriptor error, and the (pre-flattened, at most one level)
replacement. -/
structure ModulePublic where
  Path : String
  Version : String
  Error : Option String
  Replace : Option ModInfo
deriving DecidableEq, Repr

/-- Lines 133–135: `if info.Replace != nil { info = info.Replace }`. -/
def effective (info : ModulePublic) : ModInfo :=
  match info.Replace with
  | some r => r
  | none => { Path := info.Path, Version := info.Version, Error := info.Error }

/-- The `moduleJSON` outcome record (lines 68–78).  As in Go, every field is
a string whose zero value `""` means "unset". -/
structure ModuleJSON where
  Path : String
  Version : String
  Error : String := ""
  Info : String := ""
  GoMod : String := ""
  Zip : String := ""
  Dir : String := ""
  Sum : String := ""
  GoModSum : String := ""
deriving DecidableEq, Repr

/-- The six external `modfetch` operations used by the worker, keyed by
(path, version).  `Except.error e` stands for a non-nil Go error with
message `e`.  `modfetch.Sum` returns a plain string and cannot fail, exactly
as in the source (line 179). -/
structure Fetcher where
  infoFile : String → String → Except String String
  goModFile : String → String → Except String String
  goModSum : String → String → Except String String
  downloadZip : String → String → Except String String
  sum : String → String → String
  download : String → String → Except String String

/-- The worker closure passed to `work.Do` (lines 155–185): six stages in
order Info, GoMod, GoModSum, Zip, Sum, Dir; on the first failing stage the
error message is recorded in `Error` and the worker returns. -/
def runWorker (f : Fetcher) (m : ModuleJSON) : ModuleJSON :=
  match f.infoFile m.Path m.Version with
  | .error e => { m with Error := e }
  | .ok infoPath =>
    let m1 := { m with Info := infoPath }
    match f.goModFile m1.Path m1.Version with
    | .error e => { m1 with Error := e }
    | .ok gmPath =>
      let m2 := { m1 with GoMod := gmPath }
      match f.goModSum m2.Path m2.Version with
      | .error e => { m2 with Error := e }
      | .ok gms =>
        let m3 := { m2 with GoModSum := gms }
        match f.downloadZip m3.Path m3.Version with
        | .error e => { m3 with Error := e }
        | .ok zipPath =>
          let m4 := { m3 with Zip := zipPath }
          let m5 := { m4 with Sum := f.sum m4.Path m4.Version }
          match f.download m5.Path m5.Version with
          | .error e => { m5 with Error := e }
          | .ok dir => { m5 with Dir := dir }

/-- Modelled from the spec: the deduplicating bounded scheduler
`cmd/go/internal/par.Work` is not among the provided sources (only its
caller is).  Per the spec (§3 WorkKey, §4.2), `Add` registers a work item
under its key — the ModuleDescriptor's (path, version) pair — and is a pure
no-op when that key was already registered, and the drain runs the worker
once per distinct registered item.  Work items here are outcome records,
identified by their index in the `mods` list (standing for the Go pointer
identity of the record the worker mutates). -/
structure Work where
  added : List (String × String)
  scheduled : List Nat
deriving DecidableEq, Repr

def Work.empty : Work := { added := [], scheduled := [] }

/-- Modelled from the spec: `Work.Add` — a no-op if the key is already
registered, otherwise the record (by index) becomes eligible for
execution. -/
def Work.add (w : Work) (key : String × String) (idx : Nat) : Work :=
  if key ∈ w.added then w
  else { added := w.added ++ [key], scheduled := w.scheduled ++ [idx] }

/-- State built by the resolution loop: the ordered outcome list `mods` and
the scheduler. -/
structure ResolveState where
  mods : List ModuleJSON
  work : Work
deriving DecidableEq, Repr

/-- One iteration of the loop over `modload.ListModules` (lines 131–152):
apply the replacement, drop "nothing to download" descriptors
(`Version == "" && Error == nil`), record resolution errors without
scheduling, and otherwise append the record and add it to the work. -/
def resolveStep (st : ResolveState) (info : ModulePublic) : ResolveState :=
  let i := effective info
  if i.Version = "" ∧ i.Error = none then st
  else
    match i.Error with
    | some e =>
      { st with mods := st.mods ++ [{ Path := i.Path, Version := i.Version, Error := e }] }
    | none =>
      { mods := st.mods ++ [{ Path := i.Path, Version := i.Version }],
        work := st.work.add (i.Path, i.Version) st.mods.length }

/-- The whole resolution loop (lines 131–152). -/
def resolveMods (infos : List ModulePublic) : ResolveState :=
  infos.foldl resolveStep { mods := [], work := Work.empty }

/-- Modelled from the spec: the drain `work.Do(10, worker)` (line 155).
Each scheduled record is processed exactly once by the worker, which
mutates only that record; `order` is the non-deterministic completion
order of the concurrent workers (any permutation of the scheduled
indices). -/
def workDo (f : Fetcher) (order : List Nat) (ms : List ModuleJSON) : List ModuleJSON :=
  order.foldl (fun acc i =>
    match acc[i]? with
    | some m => acc.set i (runWorker f m)
    | none => acc) ms

/-- The `-json` reporting loop (lines 187–197): print every record in list
order; after printing a record whose `Error` is set, set the process exit
indicator.  Returns (printed records, exit indicator). -/
def reportJSON (ms : List ModuleJSON) : List ModuleJSON × Bool :=
  ms.foldl (fun acc m => (acc.1 ++ [m], acc.2 || (m.Error ≠ ""))) ([], false)

/-- The plain-mode reporting loop (lines 198–204): `base.Errorf` each
record's error (which sets the exit indicator); `base.ExitIfErrors` makes
the indicator take effect.  Returns (diagnostic lines, exit indicator). -/
def reportPlain (ms : List ModuleJSON) : List String × Bool :=
  ms.foldl (fun acc m => if m.Error ≠ "" then (acc.1 ++ [m.Error], true) else acc) ([], false)

/-- The diagnostic notice of line 103. -/
def skipNotice (arg : String) : String :=
  "go mod download: skipping argument " ++ arg ++ " that resolves to the main module"

/-- Line 102: an argument textually naming the main module — its exact path
or that path with an `@latest`, `@upgrade` or `@patch` suffix. -/
def mainModuleArg (targetPath arg : String) : Bool :=
  arg = targetPath || arg = targetPath ++ "@latest" ||
    arg = targetPath ++ "@upgrade" || arg = targetPath ++ "@patch"

/-- Result of a run: either a fatal abort before any scheduling
(`base.Fatalf`, lines 83 and 86), or a completed run carrying the emitted
main-module notices and the final outcome list. -/
inductive DownloadResult where
  | fatalConfig : String → DownloadResult
  | fatalUsage : String → DownloadResult
  | ok : List String → List ModuleJSON → DownloadResult
deriving DecidableEq, Repr

/-- `runDownload` (lines 80–205), up to the choice of output mode (the
reporting loops are `reportJSON` / `reportPlain` over the returned outcome
list).  Inputs: the `GO111MODULE` setting, `modload.HasModRoot()`, the main
module path `modload.Target.Path`, `modload.ListModules` as a function, the
`modfetch` operations, and the argument list. -/
def runDownload (go111module : String) (hasModRoot : Bool) (targetPath : String)
    (listModules : List String → List ModulePublic) (f : Fetcher)
    (args : List String) : DownloadResult :=
  if go111module = "off" then
    .fatalConfig "go: modules disabled by GO111MODULE=off; see 'go help modules'"
  else if ¬hasModRoot ∧ args = [] then
    .fatalUsage "go mod download: no modules specified (see 'go help mod download')"
  else
    let args1 := if args = [] then ["all"] else args
    let notices :=
      if args ≠ [] ∧ hasModRoot then
        (args.filter (fun a => mainModuleArg targetPath a)).map skipNotice
      else []
    let st := resolveMods (listModules args1)
    .ok notices (workDo f st.work.scheduled st.mods)

/-! ### Lemmas about the drain `workDo` -/

theorem workDo_nil (f : Fetcher) (ms : List ModuleJSON) : workDo f [] ms = ms := rfl

theorem workDo_cons (f : Fetcher) (a : Nat) (order : List Nat) (ms : List ModuleJSON) :
    workDo f (a :: order) ms =
      workDo f order
        (match ms[a]? with
          | some m => ms.set a (runWorker f m)
          | none => ms) := rfl

theorem getElem_workDo_not_mem (f : Fetcher) (order : List Nat) (ms : List ModuleJSON)
    (n : Nat) (hn : n ∉ order) : (workDo f order ms)[n]? = ms[n]? := by
  induction order generalizing ms with
  | nil => rfl
  | cons a rest ih =>
    have hna : n ≠ a := fun h => hn (h ▸ List.mem_cons_self a rest)
    have hnr : n ∉ rest := fun h => hn (List.mem_cons_of_mem a h)
    rw [workDo_cons]
    cases hma : ms[a]? with
    | none => exact ih ms hnr
    | some m => rw [ih _ hnr]; exact List.getElem?_set_ne (fun h => hna h.symm)

theorem getElem_workDo_mem (f : Fetcher) (order : List Nat) (ms : List ModuleJSON)
    (n : Nat) (hnd : order.Nodup) (hn : n ∈ order) :
    (workDo f order ms)[n]? = ms[n]?.map (runWorker f) := by
  induction order generalizing ms with
  | nil => cases hn
  | cons a rest ih =>
    have har : a ∉ rest := (List.nodup_cons.mp hnd).1
    have hrd : rest.Nodup := (List.nodup_cons.mp hnd).2
    rw [workDo_cons]
    rcases List.mem_cons.mp hn with hna | hnr
    · subst hna
      cases hma : ms[n]? with
      | none =>
        simp only [hma]
        rw [getElem_workDo_not_mem f rest _ n har, hma]
        rfl
      | some m =>
        have hlt : n < ms.length := by
          by_contra hge
          rw [List.getElem?_eq_none (Nat.le_of_not_lt hge)] at hma
          cases hma
        simp only [hma]
        rw [getElem_workDo_not_mem f rest _ n har, List.getElem?_set_self hlt]
        rfl
    · have hna : n ≠ a := fun h => har (h ▸ hnr)
      rw [ih _ hrd hnr]
      cases hma : ms[a]? with
      | none => rfl
      | some m => rw [List.getElem?_set_ne (fun h => hna h.symm)]

theorem workDo_perm (f : Fetcher) (order₁ order₂ : List Nat) (ms : List ModuleJSON)
    (hp : order₁.Perm order₂) (hnd : order₁.Nodup) :
    workDo f order₁ ms = workDo f order₂ ms := by
  apply List.ext_getElem?
  intro n
  by_cases hn : n ∈ order₁
  · rw [getElem_workDo_mem f order₁ ms n hnd hn,
      getElem_workDo_mem f order₂ ms n (hp.nodup_iff.mp hnd) (hp.mem_iff.mp hn)]
  · rw [getElem_workDo_not_mem f order₁ ms n hn,
      getElem_workDo_not_mem f order₂ ms n (fun h => hn (hp.mem_iff.mpr h))]

/-! ### Invariants of the resolution loop -/

/-- Invariant of the resolution loop: scheduled indices are distinct, point
at error-free records of `mods`, and every record starts with all six stage
fields unset. -/
def GoodState (st : ResolveState) : Prop :=
  st.work.scheduled.Nodup ∧
  (∀ i ∈ st.work.scheduled, i < st.mods.length ∧
    ∃ m, st.mods[i]? = some m ∧ m.Error = "") ∧
  (∀ (i : Nat) (m : ModuleJSON), st.mods[i]? = some m →
    m.Info = "" ∧ m.GoMod = "" ∧ m.GoModSum = "" ∧ m.Zip = "" ∧
      m.Sum = "" ∧ m.Dir = "")

theorem getElem_singleton {α : Type} (a m : α) (j : Nat)
    (h : ([a] : List α)[j]? = some m) : m = a := by
  cases j with
  | zero => exact (Option.some.inj h).symm
  | succ n => simp at h

/-- Case split of the resolution loop, first branch: a descriptor with empty
version and no error is dropped entirely (lines 136–140). -/
theorem resolveStep_drop (st : ResolveState) (info : ModulePublic)
    (hv : (effective info).Version = "") (he : (effective info).Error = none) :
    resolveStep st info = st := by
  unfold resolveStep
  simp [hv, he]

/-- Case split of the resolution loop, second branch: a descriptor carrying a
resolution error is appended with only path, version and error set, and is
not added to the work (lines 141–149). -/
theorem resolveStep_error (st : ResolveState) (info : ModulePublic) (e : String)
    (he : (effective info).Error = some e) :
    resolveStep st info =
      { st with mods := st.mods ++
          [{ Path := (effective info).Path, Version := (effective info).Version,
             Error := e }] } := by
  unfold resolveStep
  have hc : ¬((effective info).Version = "" ∧ (effective info).Error = none) := by
    simp [he]
  simp [hc, he]

/-- Case split of the resolution loop, third branch: an error-free descriptor
with a version is appended and added to the work keyed by (path, version)
(lines 141–151). -/
theorem resolveStep_schedule (st : ResolveState) (info : ModulePublic)
    (hv : (effective info).Version ≠ "") (he : (effective info).Error = none) :
    resolveStep st info =
      { mods := st.mods ++
          [{ Path := (effective info).Path, Version := (effective info).Version }],
        work := st.work.add ((effective info).Path, (effective info).Version)
          st.mods.length } := by
  unfold resolveStep
  have hc : ¬((effective info).Version = "" ∧ (effective info).Error = none) := by
    simp [hv]
  simp [hc, he, hv]

theorem goodState_resolveStep (st : ResolveState) (info : ModulePublic)
    (h : GoodState st) : GoodState (resolveStep st info) := by
  obtain ⟨hnd, hsched, hfields⟩ := h
  have hext : ∀ rec : ModuleJSON,
      (∀ i ∈ st.work.scheduled, i < (st.mods ++ [rec]).length ∧
        ∃ m, (st.mods ++ [rec])[i]? = some m ∧ m.Error = "") := by
    intro rec i hi
    obtain ⟨hlt, m, hm, hme⟩ := hsched i hi
    refine ⟨by simp; omega, m, ?_, hme⟩
    rwa [List.getElem?_append_left hlt]
  have hfieldsext : ∀ rec : ModuleJSON,
      rec.Info = "" → rec.GoMod = "" → rec.GoModSum = "" → rec.Zip = "" →
      rec.Sum = "" → rec.Dir = "" →
      (∀ (i : Nat) (m : ModuleJSON), (st.mods ++ [rec])[i]? = some m →
        m.Info = "" ∧ m.GoMod = "" ∧ m.GoModSum = "" ∧ m.Zip = "" ∧
          m.Sum = "" ∧ m.Dir = "") := by
    intro rec h1 h2 h3 h4 h5 h6 i m hm
    rcases Nat.lt_or_ge i st.mods.length with hlt | hge
    · rw [List.getElem?_append_left hlt] at hm
      exact hfields i m hm
    · rw [List.getElem?_append_right hge] at hm
      have := getElem_singleton rec m _ hm
      subst this
      exact ⟨h1, h2, h3, h4, h5, h6⟩
  by_cases hc : (effective info).Version = "" ∧ (effective info).Error = none
  · rw [resolveStep_drop st info hc.1 hc.2]
    exact ⟨hnd, hsched, hfields⟩
  · cases he : (effective info).Error with
    | some e =>
      rw [resolveStep_error st info e he]
      exact ⟨hnd, hext _, hfieldsext _ rfl rfl rfl rfl rfl rfl⟩
    | none =>
      have hv : (effective info).Version ≠ "" := fun h => hc ⟨h, he⟩
      rw [resolveStep_schedule st info hv he]
      by_cases hk : ((effective info).Path, (effective info).Version) ∈ st.work.added
      · simp only [Work.add, if_pos hk]
        exact ⟨hnd, hext _, hfieldsext _ rfl rfl rfl rfl rfl rfl⟩
      · simp only [Work.add, if_neg hk]
        refine ⟨?_, ?_, hfieldsext _ rfl rfl rfl rfl rfl rfl⟩
        · refine hnd.append (List.nodup_singleton _) ?_
          intro a ha hb
          have hlt := (hsched a ha).1
          have : a = st.mods.length := List.mem_singleton.mp hb
          omega
        · intro i hi
          rcases List.mem_append.mp hi with hio | hin
          · exact hext _ i hio
          · have : i = st.mods.length := List.mem_singleton.mp hin
            subst this
            refine ⟨by simp, _, List.getElem?_concat_length _ _, rfl⟩

theorem goodState_foldl (infos : List ModulePublic) (st : ResolveState)
    (h : GoodState st) : GoodState (infos.foldl resolveStep st) := by
  induction infos generalizing st with
  | nil => exact h
  | cons info rest ih => exact ih _ (goodState_resolveStep st info h)

theorem goodState_resolveMods (infos : List ModulePublic) :
    GoodState (resolveMods infos) := by
  refine goodState_foldl infos _ ⟨List.nodup_nil, ?_, ?_⟩
  · intro i hi
    simp [Work.empty] at hi
  · intro i m hm
    simp at hm

/-! ### Counting the outcome records -/

/-- A resolved descriptor the loop keeps: anything but the
nothing-to-fetch marker (empty version with error unset). -/
def keptDescriptor (info : ModulePublic) : Bool :=
  decide ¬((effective info).Version = "" ∧ (effective info).Error = none)

theorem resolveStep_length (st : ResolveState) (info : ModulePublic) :
    (resolveStep st info).mods.length =
      st.mods.length + (if keptDescriptor info then 1 else 0) := by
  by_cases hc : (effective info).Version = "" ∧ (effective info).Error = none
  · rw [resolveStep_drop st info hc.1 hc.2]
    simp [keptDescriptor, hc]
  · cases he : (effective info).Error with
    | some e =>
      rw [resolveStep_error st info e he]
      simp [keptDescriptor, hc]
    | none =>
      have hv : (effective info).Version ≠ "" := fun h => hc ⟨h, he⟩
      rw [resolveStep_schedule st info hv he]
      simp [keptDescriptor, hc]

theorem resolveMods_length_aux (infos : List ModulePublic) (st : ResolveState) :
    (infos.foldl resolveStep st).mods.length =
      st.mods.length + (infos.filter keptDescriptor).length := by
  induction infos generalizing st with
  | nil => simp
  | cons info rest ih =>
    rw [List.foldl_cons, ih, resolveStep_length, List.filter_cons]
    by_cases hk : keptDescriptor info
    · simp only [hk, if_pos, if_true, List.length_cons]
      omega
    · simp only [hk]
      simp

/-! ### The reporting loops -/

theorem reportJSON_foldl (ms : List ModuleJSON) (acc : List ModuleJSON) (b : Bool) :
    ms.foldl (fun acc m => (acc.1 ++ [m], acc.2 || (m.Error ≠ ""))) (acc, b) =
      (acc ++ ms, b || ms.any fun m => decide (m.Error ≠ "")) := by
  induction ms generalizing acc b with
  | nil => simp
  | cons m rest ih =>
    rw [List.foldl_cons, ih]
    simp [Bool.or_assoc]

theorem reportJSON_eq (ms : List ModuleJSON) :
    reportJSON ms = (ms, ms.any fun m => decide (m.Error ≠ "")) := by
  unfold reportJSON
  rw [reportJSON_foldl]
  simp

theorem reportPlain_foldl (ms : List ModuleJSON) (acc : List String) (b : Bool) :
    ms.foldl (fun acc m => if m.Error ≠ "" then (acc.1 ++ [m.Error], true) else acc)
        (acc, b) =
      (acc ++ (ms.filter fun m => decide (m.Error ≠ "")).map ModuleJSON.Error,
        b || ms.any fun m => decide (m.Error ≠ "")) := by
  induction ms generalizing acc b with
  | nil => simp
  | cons m rest ih =>
    rw [List.foldl_cons]
    by_cases hm : m.Error = ""
    · simp only [hm, ne_eq, not_true_eq_false, if_neg, ite_false]
      rw [ih]
      simp [hm, List.filter_cons]
    · simp only [ne_eq, hm, not_false_eq_true, if_pos, ite_true]
      rw [ih]
      simp [hm, List.filter_cons]

theorem reportPlain_eq (ms : List ModuleJSON) :
    reportPlain ms =
      ((ms.filter fun m => decide (m.Error ≠ "")).map ModuleJSON.Error,
        ms.any fun m => decide (m.Error ≠ "")) := by
  unfold reportPlain
  rw [reportPlain_foldl]
  simp

/-! ### The worker only consults the fetcher at its own key -/

/-- Two fetchers that agree on all six operations at one (path, version)
key. -/
def agreesAt (f g : Fetcher) (p v : String) : Prop :=
  f.infoFile p v = g.infoFile p v ∧ f.goModFile p v = g.goModFile p v ∧
  f.goModSum p v = g.goModSum p v ∧ f.downloadZip p v = g.downloadZip p v ∧
  f.sum p v = g.sum p v ∧ f.download p v = g.download p v

theorem runWorker_congr (f g : Fetcher) (m : ModuleJSON)
    (h : agreesAt f g m.Path m.Version) : runWorker f m = runWorker g m := by
  obtain ⟨h1, h2, h3, h4, h5, h6⟩ := h
  simp only [runWorker, h1, h2, h3, h4, h5, h6]

/-! ### Concrete fixtures -/

/-- A fetcher whose six stages all succeed. -/
def stubFetcher : Fetcher where
  infoFile := fun p v => .ok (p ++ "@" ++ v ++ ".info")
  goModFile := fun p v => .ok (p ++ "@" ++ v ++ ".mod")
  goModSum := fun p v => .ok ("h1:gomod-" ++ p ++ "-" ++ v)
  downloadZip := fun p v => .ok (p ++ "@" ++ v ++ ".zip")
  sum := fun p v => "h1:" ++ p ++ "-" ++ v
  download := fun p v => .ok (p ++ "@" ++ v)

/-- A fetcher that fails at the manifest stage for `example.org/a` and
succeeds everywhere else. -/
def failingFetcher : Fetcher :=
  { stubFetcher with
    goModFile := fun p v =>
      if p = "example.org/a" then .error "manifest fetch failed"
      else .ok (p ++ "@" ++ v ++ ".mod") }

/-- A fetcher that fails only at the final extracted-directory stage. -/
def dirFailFetcher : Fetcher :=
  { stubFetcher with download := fun _ _ => .error "extraction failed" }

/-- Two error-free resolved descriptors. -/
def demoInfos : List ModulePublic :=
  [{ Path := "example.org/a", Version := "v1.0.0", Error := none, Replace := none },
   { Path := "example.org/b", Version := "v2.0.0", Error := none, Replace := none }]

/-- One descriptor whose resolution failed, one error-free descriptor. -/
def demoInfosErr : List ModulePublic :=
  [{ Path := "example.org/broken", Version := "",
     Error := some "cannot resolve pattern", Replace := none },
   { Path := "example.org/b", Version := "v2.0.0", Error := none, Replace := none }]

/-- A resolver stub returning the two demo descriptors for any patterns. -/
def stubResolver : List String → List ModulePublic := fun _ => demoInfos

/-! ### The claims -/

/-- C1: submitting two module descriptors with the same (path, version) key
to the scheduler results in exactly one execution of the fetch pipeline for
that key — the second `add` is a pure no-op, the key is scheduled once, and
the drain applies the six-stage worker exactly once to that record. -/
theorem scheduler_second_submission_noop (w : Work) (k : String × String) (i j : Nat)
    (f : Fetcher) (ms : List ModuleJSON) (m : ModuleJSON) (hm : ms[i]? = some m) :
    (w.add k i).add k j = w.add k i ∧
    ((Work.empty.add k i).add k j).scheduled = [i] ∧
    workDo f ((Work.empty.add k i).add k j).scheduled ms = ms.set i (runWorker f m) := by
  refine ⟨?_, ?_, ?_⟩
  · by_cases h : k ∈ w.added
    · simp [Work.add, h]
    · simp [Work.add, h]
  · simp [Work.empty, Work.add]
  · simp [Work.empty, Work.add, workDo, hm]

/-- Runs C1 on a concrete duplicate submission of
("example.org/a", "v1.0.0"). -/
theorem scheduler_second_submission_noop_witness :
    workDo stubFetcher
      ((Work.empty.add ("example.org/a", "v1.0.0") 0).add
        ("example.org/a", "v1.0.0") 0).scheduled
      [{ Path := "example.org/a", Version := "v1.0.0" }] =
      [runWorker stubFetcher { Path := "example.org/a", Version := "v1.0.0" }] := by
  have h := (scheduler_second_submission_noop Work.empty ("example.org/a", "v1.0.0") 0 0
    stubFetcher [{ Path := "example.org/a", Version := "v1.0.0" }]
    { Path := "example.org/a", Version := "v1.0.0" } rfl).2.2
  simpa using h

/-- C2: the worker runs the stages in order info, manifest,
manifest-checksum, archive, archive-checksum, extracted-directory; at the
first failing stage the error is recorded in the outcome and the worker
returns immediately, so every later stage field is unset while every field
of an earlier successful stage stays populated. -/
theorem pipeline_short_circuit (f : Fetcher) (p v : String) :
    (∀ e, f.infoFile p v = .error e →
      runWorker f { Path := p, Version := v } =
        { Path := p, Version := v, Error := e }) ∧
    (∀ i e, f.infoFile p v = .ok i → f.goModFile p v = .error e →
      runWorker f { Path := p, Version := v } =
        { Path := p, Version := v, Error := e, Info := i }) ∧
    (∀ i g e, f.infoFile p v = .ok i → f.goModFile p v = .ok g →
        f.goModSum p v = .error e →
      runWorker f { Path := p, Version := v } =
        { Path := p, Version := v, Error := e, Info := i, GoMod := g }) ∧
    (∀ i g gs e, f.infoFile p v = .ok i → f.goModFile p v = .ok g →
        f.goModSum p v = .ok gs → f.downloadZip p v = .error e →
      runWorker f { Path := p, Version := v } =
        { Path := p, Version := v, Error := e, Info := i, GoMod := g,
          GoModSum := gs }) ∧
    (∀ i g gs z e, f.infoFile p v = .ok i → f.goModFile p v = .ok g →
        f.goModSum p v = .ok gs → f.downloadZip p v = .ok z →
        f.download p v = .error e →
      runWorker f { Path := p, Version := v } =
        { Path := p, Version := v, Error := e, Info := i, GoMod := g,
          GoModSum := gs, Zip := z, Sum := f.sum p v }) ∧
    (∀ i g gs z d, f.infoFile p v = .ok i → f.goModFile p v = .ok g →
        f.goModSum p v = .ok gs → f.downloadZip p v = .ok z →
        f.download p v = .ok d →
      runWorker f { Path := p, Version := v } =
        { Path := p, Version := v, Info := i, GoMod := g, GoModSum := gs,
          Zip := z, Sum := f.sum p v, Dir := d }) := by
  refine ⟨?_, ?_, ?_, ?_, ?_, ?_⟩ <;>
    · intros
      simp_all [runWorker]

/-- Runs C2 on a concrete manifest-stage failure: the info field stays
populated, the error is recorded, and all later stage fields are unset. -/
theorem pipeline_short_circuit_witness :
    runWorker failingFetcher { Path := "example.org/a", Version := "v1.0.0" } =
      { Path := "example.org/a", Version := "v1.0.0",
        Error := "manifest fetch failed", Info := "example.org/a@v1.0.0.info" } :=
  (pipeline_short_circuit failingFetcher "example.org/a" "v1.0.0").2.1
    "example.org/a@v1.0.0.info" "manifest fetch failed" rfl rfl

/-- C9: the archive-checksum stage can never cause a pipeline failure: the
worker assigns the checksum without an error check, so whenever the archive
stage succeeds the checksum field is populated — including when the
extracted-directory stage then fails — and a recorded error can only
originate from the extracted-directory stage. -/
theorem sum_stage_never_fails (f : Fetcher) (p v i g gs z : String)
    (h1 : f.infoFile p v = .ok i) (h2 : f.goModFile p v = .ok g)
    (h3 : f.goModSum p v = .ok gs) (h4 : f.downloadZip p v = .ok z) :
    (runWorker f { Path := p, Version := v }).Sum = f.sum p v ∧
    (∀ e, f.download p v = .error e →
      runWorker f { Path := p, Version := v } =
        { Path := p, Version := v, Error := e, Info := i, GoMod := g,
          GoModSum := gs, Zip := z, Sum := f.sum p v }) ∧
    ((runWorker f { Path := p, Version := v }).Error ≠ "" →
      f.download p v = .error ((runWorker f { Path := p, Version := v }).Error)) := by
  cases hd : f.download p v with
  | error e' =>
    refine ⟨?_, ?_, ?_⟩
    · simp [runWorker, h1, h2, h3, h4, hd]
    · intro e he
      have hee : e' = e := by injection he
      subst hee
      simp [runWorker, h1, h2, h3, h4, hd]
    · intro _
      simp [runWorker, h1, h2, h3, h4, hd]
  | ok d =>
    refine ⟨?_, ?_, ?_⟩
    · simp [runWorker, h1, h2, h3, h4, hd]
    · intro e he
      simp at he
    · intro hne
      exfalso
      apply hne
      simp [runWorker, h1, h2, h3, h4, hd]

/-- Runs C9 on a concrete extraction failure: the archive checksum is
populated although the last stage failed. -/
theorem sum_stage_never_fails_witness :
    runWorker dirFailFetcher { Path := "example.org/b", Version := "v2.0.0" } =
      { Path := "example.org/b", Version := "v2.0.0", Error := "extraction failed",
        Info := "example.org/b@v2.0.0.info", GoMod := "example.org/b@v2.0.0.mod",
        GoModSum := "h1:gomod-example.org/b-v2.0.0",
        Zip := "example.org/b@v2.0.0.zip",
        Sum := dirFailFetcher.sum "example.org/b" "v2.0.0" } :=
  (sum_stage_never_fails dirFailFetcher "example.org/b" "v2.0.0"
    "example.org/b@v2.0.0.info" "example.org/b@v2.0.0.mod"
    "h1:gomod-example.org/b-v2.0.0" "example.org/b@v2.0.0.zip"
    rfl rfl rfl rfl).2.1 "extraction failed" rfl

/-- C3: the outcome records are reported in the resolver's output order,
identically for every (non-deterministic) completion order of the
concurrent fetches: draining in any permutation of the scheduled indices
yields the same final list, and the structured report prints exactly that
list in order. -/
theorem report_order_stable (f : Fetcher) (infos : List ModulePublic)
    (order : List Nat) (h : order.Perm (resolveMods infos).work.scheduled) :
    reportJSON (workDo f order (resolveMods infos).mods) =
      reportJSON (workDo f (resolveMods infos).work.scheduled
        (resolveMods infos).mods) ∧
    workDo f order (resolveMods infos).mods =
      workDo f (resolveMods infos).work.scheduled (resolveMods infos).mods ∧
    ∀ ms : List ModuleJSON, (reportJSON ms).1 = ms := by
  have hnd : (resolveMods infos).work.scheduled.Nodup := (goodState_resolveMods infos).1
  have heq := workDo_perm f order (resolveMods infos).work.scheduled
    (resolveMods infos).mods h (h.nodup_iff.mpr hnd)
  exact ⟨by rw [heq], heq, fun ms => by rw [reportJSON_eq]⟩

/-- Runs C3 with the two demo modules drained in reversed completion
order. -/
theorem report_order_stable_witness :
    reportJSON (workDo stubFetcher [1, 0] (resolveMods demoInfos).mods) =
      reportJSON (workDo stubFetcher (resolveMods demoInfos).work.scheduled
        (resolveMods demoInfos).mods) :=
  (report_order_stable stubFetcher demoInfos [1, 0] (by decide)).1

/-- C4: a stage failure for module A never prevents any stage or the
success of module B — every scheduled record runs to completion (its
drained outcome is the worker applied to it; no cancellation), and a
record's outcome depends only on the fetcher's responses at its own
(path, version) key. -/
theorem stage_failure_isolated (f g : Fetcher) (infos : List ModulePublic)
    (iB : Nat) (mB : ModuleJSON)
    (hB : iB ∈ (resolveMods infos).work.scheduled)
    (hmB : (resolveMods infos).mods[iB]? = some mB)
    (hagree : agreesAt f g mB.Path mB.Version) :
    (∀ i ∈ (resolveMods infos).work.scheduled,
      (workDo f (resolveMods infos).work.scheduled (resolveMods infos).mods)[i]? =
        ((resolveMods infos).mods[i]?).map (runWorker f)) ∧
    (workDo f (resolveMods infos).work.scheduled (resolveMods infos).mods)[iB]? =
      some (runWorker g mB) := by
  have hnd : (resolveMods infos).work.scheduled.Nodup := (goodState_resolveMods infos).1
  constructor
  · intro i hi
    exact getElem_workDo_mem f _ _ i hnd hi
  · rw [getElem_workDo_mem f _ _ iB hnd hB, hmB]
    simp [runWorker_congr f g mB hagree]

/-- Runs C4 on a run where module a's manifest stage fails while module b
succeeds: b's drained outcome is its fully processed record. -/
theorem stage_failure_isolated_witness :
    (workDo failingFetcher (resolveMods demoInfos).work.scheduled
      (resolveMods demoInfos).mods)[1]? =
      some (runWorker failingFetcher
        { Path := "example.org/b", Version := "v2.0.0" }) :=
  (stage_failure_isolated failingFetcher failingFetcher demoInfos 1
    { Path := "example.org/b", Version := "v2.0.0" } (by decide) (by decide)
    ⟨rfl, rfl, rfl, rfl, rfl, rfl⟩).2

/-- The count the claim C5 states, taken literally: resolved descriptors
with non-empty version and no nothing-to-fetch marker (empty version with
error unset). -/
def claimedOutcomeCount (infos : List ModulePublic) : Nat :=
  (infos.filter fun info =>
    decide ((effective info).Version ≠ "" ∧
      ¬((effective info).Version = "" ∧ (effective info).Error = none))).length

/-- C5 as stated is false: a descriptor with an empty version but a
resolution error (a pattern that failed to resolve) is reported — on the
concrete input `demoInfosErr` the code yields two outcome records while the
claim predicts one. -/
theorem outcome_count_counterexample :
    (resolveMods demoInfosErr).mods.length = 2 ∧
    claimedOutcomeCount demoInfosErr = 1 := by
  constructor <;> rfl

/-- C5 amended: the number of outcome records equals the number of resolved
descriptors (after replacement) that do not carry the nothing-to-fetch
marker — empty version together with unset error; marked descriptors are
silently dropped (no record, no scheduling), while descriptors with an
empty version but a resolution error are still reported. -/
theorem outcome_count_amended (infos : List ModulePublic) :
    (resolveMods infos).mods.length = (infos.filter keptDescriptor).length ∧
    ∀ (st : ResolveState) (info : ModulePublic),
      (effective info).Version = "" → (effective info).Error = none →
      resolveStep st info = st := by
  refine ⟨?_, fun st info hv he => resolveStep_drop st info hv he⟩
  have h := resolveMods_length_aux infos { mods := [], work := Work.empty }
  simpa [resolveMods] using h

/-- Runs C5 (amended) on a main-module descriptor: it is dropped without a
trace. -/
theorem outcome_count_amended_witness :
    resolveStep { mods := [], work := Work.empty }
      { Path := "example.org/main", Version := "", Error := none, Replace := none } =
      { mods := [], work := Work.empty } :=
  (outcome_count_amended []).2 { mods := [], work := Work.empty }
    { Path := "example.org/main", Version := "", Error := none, Replace := none }
    rfl rfl

/-- C6: the process-level failure indicator is set iff at least one outcome
carries an error; an error never aborts the output of later records — the
structured report prints every record, and the plain report emits every
error to the diagnostic stream. -/
theorem exit_status_policy (ms : List ModuleJSON) :
    ((reportJSON ms).2 = true ↔ ∃ m ∈ ms, m.Error ≠ "") ∧
    ((reportPlain ms).2 = true ↔ ∃ m ∈ ms, m.Error ≠ "") ∧
    (reportJSON ms).1 = ms ∧
    (reportPlain ms).1 =
      (ms.filter fun m => decide (m.Error ≠ "")).map ModuleJSON.Error := by
  rw [reportJSON_eq, reportPlain_eq]
  refine ⟨?_, ?_, rfl, rfl⟩ <;> simp [List.any_eq_true]

/-- C7: with module mode explicitly disabled the run aborts fatally with the
configuration error before any scheduling; with no patterns and no module
root it aborts fatally with the usage error before any scheduling; with no
patterns but a module root it proceeds with the single default pattern
"all" (and no skip notices). -/
theorem fatal_gates (go111 : String) (hasRoot : Bool) (tp : String)
    (listModules : List String → List ModulePublic) (f : Fetcher)
    (args : List String) :
    (go111 = "off" →
      runDownload go111 hasRoot tp listModules f args =
        .fatalConfig "go: modules disabled by GO111MODULE=off; see 'go help modules'") ∧
    (go111 ≠ "off" → hasRoot = false → args = [] →
      runDownload go111 hasRoot tp listModules f args =
        .fatalUsage "go mod download: no modules specified (see 'go help mod download')") ∧
    (go111 ≠ "off" → hasRoot = true →
      runDownload go111 hasRoot tp listModules f [] =
        .ok [] (workDo f (resolveMods (listModules ["all"])).work.scheduled
          (resolveMods (listModules ["all"])).mods)) := by
  refine ⟨?_, ?_, ?_⟩
  · intro h
    unfold runDownload
    simp [h]
  · intro h1 h2 h3
    subst h2; subst h3
    unfold runDownload
    simp [h1]
  · intro h1 h2
    subst h2
    unfold runDownload
    simp [h1]

/-- Runs C7's first gate on a concrete disabled-modules environment. -/
theorem fatal_gates_witness :
    runDownload "off" true "example.org/main" stubResolver stubFetcher ["all"] =
      .fatalConfig "go: modules disabled by GO111MODULE=off; see 'go help modules'" :=
  (fatal_gates "off" true "example.org/main" stubResolver stubFetcher ["all"]).1 rfl

/-- C8: an argument textually naming the main module — its exact path or
that path with an `@latest`, `@upgrade` or `@patch` suffix — makes the run
emit the skip notice on the error stream; this is not an error (the run
still completes normally), and since such an argument resolves to the main
module, whose descriptor carries an empty version and no error, it
contributes nothing further to the outcome list. -/
theorem main_module_arg_notice (go111 : String) (tp : String)
    (listModules : List String → List ModulePublic) (f : Fetcher)
    (args : List String) (hoff : go111 ≠ "off") (hargs : args ≠ []) :
    runDownload go111 true tp listModules f args =
      .ok ((args.filter fun a => mainModuleArg tp a).map skipNotice)
        (workDo f (resolveMods (listModules args)).work.scheduled
          (resolveMods (listModules args)).mods) ∧
    (∀ a ∈ args, mainModuleArg tp a = true →
      skipNotice a ∈ (args.filter fun a => mainModuleArg tp a).map skipNotice) ∧
    (∀ (st : ResolveState) (info : ModulePublic),
      (effective info).Version = "" → (effective info).Error = none →
      resolveStep st info = st) := by
  refine ⟨?_, ?_, fun st info hv he => resolveStep_drop st info hv he⟩
  · unfold runDownload
    simp [hoff, hargs]
  · intro a ha hm
    exact List.mem_map_of_mem skipNotice (List.mem_filter.mpr ⟨ha, hm⟩)

/-- Runs C8 on the concrete argument "example.org/main@latest" naming the
main module. -/
theorem main_module_arg_notice_witness :
    runDownload "on" true "example.org/main" stubResolver stubFetcher
        ["example.org/main@latest"] =
      .ok ((["example.org/main@latest"].filter fun a =>
            mainModuleArg "example.org/main" a).map skipNotice)
        (workDo stubFetcher
          (resolveMods (stubResolver ["example.org/main@latest"])).work.scheduled
          (resolveMods (stubResolver ["example.org/main@latest"])).mods) :=
  (main_module_arg_notice "on" "example.org/main" stubResolver stubFetcher
    ["example.org/main@latest"] (by decide) (by decide)).1

/-- C10: a descriptor whose resolution produced an error is appended to the
outcome list with only path, version and error set and is never submitted
to the scheduler; its record is untouched by the drain, so all six fetch
stage fields stay unset. -/
theorem resolution_error_frame (infos : List ModulePublic) (idx : Nat)
    (m : ModuleJSON) (hm : (resolveMods infos).mods[idx]? = some m)
    (he : m.Error ≠ "") :
    (m.Info = "" ∧ m.GoMod = "" ∧ m.GoModSum = "" ∧ m.Zip = "" ∧
      m.Sum = "" ∧ m.Dir = "") ∧
    idx ∉ (resolveMods infos).work.scheduled ∧
    (∀ f : Fetcher,
      (workDo f (resolveMods infos).work.scheduled
        (resolveMods infos).mods)[idx]? = some m) ∧
    (∀ (st : ResolveState) (info : ModulePublic) (e : String),
      (effective info).Error = some e →
      resolveStep st info =
        { st with mods := st.mods ++
            [{ Path := (effective info).Path, Version := (effective info).Version,
               Error := e }] }) := by
  obtain ⟨hnd, hsched, hfields⟩ := goodState_resolveMods infos
  have hnmem : idx ∉ (resolveMods infos).work.scheduled := by
    intro hi
    obtain ⟨_, m', hm', hme'⟩ := hsched idx hi
    rw [hm] at hm'
    have hmm : m = m' := Option.some.inj hm'
    subst hmm
    exact he hme'
  refine ⟨hfields idx m hm, hnmem, ?_,
    fun st info e h => resolveStep_error st info e h⟩
  intro f
  rw [getElem_workDo_not_mem f _ _ idx hnmem, hm]

/-- Runs C10 on the concrete run `demoInfosErr`: the errored record at
index 0 comes out of the drain untouched. -/
theorem resolution_error_frame_witness :
    (workDo stubFetcher (resolveMods demoInfosErr).work.scheduled
      (resolveMods demoInfosErr).mods)[0]? =
      some { Path := "example.org/broken", Version := "",
             Error := "cannot resolve pattern" } :=
  (resolution_error_frame demoInfosErr 0
    { Path := "example.org/broken", Version := "",
      Error := "cannot resolve pattern" }
    (by decide) (by decide)).2.2.1 stubFetcher
